import Mathlib

/-!
Shallow embedding of `src/app.rs` (Ryland-Edwards/ComputerBits): the LED
memory-display component of a MIPS-emulator UI.  A `MemoryRow` is one
addressable 32-bit word; `TemplateApp` owns the ordered row sequence and the
row-management operations.  Machine integers (`u32`) are modelled as `Nat`
with an explicit `% 2 ^ 32` at the one place the Rust code can wrap
(`(i as u32) * 4` when computing a row address); `usize` indices and counts
are plain `Nat`.  The UI field `led_size : f32` is never read or written by
any bank operation and is omitted from the state.
-/

def U32_MOD : Nat := 2 ^ 32

/-- `pub struct MemoryRow { pub address: u32, pub data: u32 }` -/
structure MemoryRow where
  address : Nat
  data : Nat
deriving Repr, DecidableEq

namespace MemoryRow

/-- `MemoryRow::new(address, data)` -/
def new (address : Nat) (data : Nat) : MemoryRow :=
  { address := address, data := data }

/-- `get_bit`: `if bit_index < 32 { (self.data >> bit_index) & 1 == 1 } else { false }` -/
def get_bit (r : MemoryRow) (bit_index : Nat) : Bool :=
  if bit_index < 32 then
    ((r.data >>> bit_index) &&& 1) == 1
  else
    false

/-- `set_bit`: for `bit_index < 32`, `data |= 1 << bit_index` when `value`,
`data &= !(1 << bit_index)` otherwise (u32 complement of the one-hot mask);
out of range it leaves the row untouched. -/
def set_bit (r : MemoryRow) (bit_index : Nat) (value : Bool) : MemoryRow :=
  if bit_index < 32 then
    if value then
      { r with data := r.data ||| (1 <<< bit_index) }
    else
      { r with data := r.data &&& ((U32_MOD - 1) ^^^ (1 <<< bit_index)) }
  else
    r

end MemoryRow

/-- `pub struct TemplateApp { memory_rows: Vec<MemoryRow>, num_rows: usize, led_size: f32 }`
(`led_size` omitted: no bank operation touches it). -/
structure TemplateApp where
  memory_rows : List MemoryRow
  num_rows : Nat
deriving Repr, DecidableEq

namespace TemplateApp

/-- `initialize_memory_rows`: clears the vector, then for `i in 0..num_rows`
pushes `MemoryRow::new((i as u32) * 4, 0)`.  The address computation is u32,
hence the `% 2 ^ 32`. -/
def initialize_memory_rows (app : TemplateApp) : TemplateApp :=
  { app with
    memory_rows :=
      (List.range app.num_rows).map (fun i => MemoryRow.new (4 * i % U32_MOD) 0) }

/-- `Default::default()`: empty vector, `num_rows = 4`, then
`initialize_memory_rows`. -/
def default : TemplateApp :=
  initialize_memory_rows { memory_rows := [], num_rows := 4 }

/-- `add_memory_row`: pushes a row at address `(len as u32) * 4` (u32, may
wrap) with data 0, then sets `num_rows = memory_rows.len()`. -/
def add_memory_row (app : TemplateApp) : TemplateApp :=
  let rows := app.memory_rows ++ [MemoryRow.new (4 * app.memory_rows.length % U32_MOD) 0]
  { app with memory_rows := rows, num_rows := rows.length }

/-- `remove_memory_row`: if the vector is non-empty, `pop()` and set
`num_rows = memory_rows.len()`; otherwise do nothing. -/
def remove_memory_row (app : TemplateApp) : TemplateApp :=
  if app.memory_rows.isEmpty then
    app
  else
    { app with
      memory_rows := app.memory_rows.dropLast,
      num_rows := app.memory_rows.dropLast.length }

/-- Helper for `set_memory_data`: overwrite the data of the first row whose
address equals `address` (`iter_mut().find(...)`); no match leaves the list
unchanged. -/
def setFirstData (address : Nat) (value : Nat) : List MemoryRow → List MemoryRow
  | [] => []
  | r :: rs =>
    if r.address == address then
      { r with data := value } :: rs
    else
      r :: setFirstData address value rs

/-- `set_memory_data(address, data)` -/
def set_memory_data (app : TemplateApp) (address : Nat) (value : Nat) : TemplateApp :=
  { app with memory_rows := setFirstData address value app.memory_rows }

/-- `get_memory_data(address)`: data of the first row with that address, or
`None`. -/
def get_memory_data (app : TemplateApp) (address : Nat) : Option Nat :=
  (app.memory_rows.find? (fun r => r.address == address)).map (fun r => r.data)

theorem length_add_memory_row (app : TemplateApp) :
    app.add_memory_row.memory_rows.length = app.memory_rows.length + 1 := by
  simp [add_memory_row]

/-- The growth loop of `load_memory_from_array`:
`while self.memory_rows.len() < data.len() { self.add_memory_row(); }`. -/
def grow_to (app : TemplateApp) (target : Nat) : TemplateApp :=
  if app.memory_rows.length < target then
    grow_to app.add_memory_row target
  else
    app
termination_by target - app.memory_rows.length
decreasing_by
  simp only [length_add_memory_row]
  omega

/-- The store loop of `load_memory_from_array`: for each `(i, value)` in the
enumerated input, if `i < memory_rows.len()` overwrite `memory_rows[i].data`.
Writing position by position from the head, the guarded loop rewrites exactly
the first `min (data.length) (rows.length)` rows. -/
def storeData : List Nat → List MemoryRow → List MemoryRow
  | _, [] => []
  | [], rows => rows
  | v :: vs, r :: rs => { r with data := v } :: storeData vs rs

/-- `load_memory_from_array(data)`: grow with `add_memory_row` until
`memory_rows.len() >= data.len()`, then store `data[i]` into row `i`. -/
def load_memory_from_array (app : TemplateApp) (data : List Nat) : TemplateApp :=
  let grown := grow_to app data.length
  { grown with memory_rows := storeData data grown.memory_rows }

/-- `clear_memory`: set every row's data to 0. -/
def clear_memory (app : TemplateApp) : TemplateApp :=
  { app with memory_rows := app.memory_rows.map (fun r => { r with data := 0 }) }

/-- The enumerated loop of `set_test_pattern`, carrying the running index:
row `i` gets `0xAAAAAAAA` when `i` is even, `0x55555555` when odd. -/
def patternFrom : Nat → List MemoryRow → List MemoryRow
  | _, [] => []
  | i, r :: rs =>
    { r with data := if i % 2 == 0 then 0xAAAAAAAA else 0x55555555 } :: patternFrom (i + 1) rs

/-- `set_test_pattern`: alternate `0xAAAAAAAA` / `0x55555555` by row index. -/
def set_test_pattern (app : TemplateApp) : TemplateApp :=
  { app with memory_rows := patternFrom 0 app.memory_rows }

/-- The per-row bit toggle path of `draw_memory_row`: bounds-check the row
index, then call `set_bit` on that row in place. -/
def set_bit_in_row (app : TemplateApp) (row_index bit_index : Nat) (value : Bool) :
    TemplateApp :=
  if h : row_index < app.memory_rows.length then
    { app with
      memory_rows :=
        app.memory_rows.set row_index
          ((app.memory_rows.get ⟨row_index, h⟩).set_bit bit_index value) }
  else
    app

/-- The state produced by the serde-derived `Deserialize` on a successfully
restored persisted value whose stored `num_rows` is `n`: the container has
`#[serde(default)]` and `memory_rows` has `#[serde(skip)]`, and serde fills a
skipped field from that field's own `Default::default()` — `Vec::new()`, the
empty vector.  `num_rows` comes from the stored value. -/
def deserialized (n : Nat) : TemplateApp :=
  { memory_rows := [], num_rows := n }

/-- `TemplateApp::new`: with storage holding a restorable state (stored row
count `n`), `eframe::get_value(...).unwrap_or_default()` returns the
deserialized state; with no storage (or an unreadable value, folded into
`none` here) it returns `Default::default()`. -/
def new (restored : Option Nat) : TemplateApp :=
  match restored with
  | some n => deserialized n
  | none => TemplateApp.default

end TemplateApp

/-! ## Helper lemmas -/

theorem MemoryRow.address_set_bit (r : MemoryRow) (i : Nat) (v : Bool) :
    (r.set_bit i v).address = r.address := by
  simp only [MemoryRow.set_bit]
  split
  · split <;> rfl
  · rfl

theorem MemoryRow.get_bit_eq_testBit (r : MemoryRow) {i : Nat} (h : i < 32) :
    r.get_bit i = r.data.testBit i := by
  simp only [MemoryRow.get_bit, if_pos h, Nat.testBit_to_div_mod,
    Nat.and_one_is_mod, Nat.shiftRight_eq_div_pow]
  rcases Nat.mod_two_eq_zero_or_one (r.data / 2 ^ i) with hp | hp <;> simp [hp]

theorem testBit_u32_mask (k : Nat) :
    Nat.testBit (U32_MOD - 1) k = decide (k < 32) := by
  show Nat.testBit (2 ^ 32 - 1) k = decide (k < 32)
  rw [Nat.testBit_two_pow_sub_one]

/-! ## C3 -/

/-- C3: for every word, bit index `i < 32` and boolean `v`, `set_bit i v`
followed by `get_bit i` returns `v`, and every other in-range index `j ≠ i`
reads the same value as before the `set_bit`. -/
theorem set_bit_get_bit_roundtrip_locality (r : MemoryRow) (i j : Nat) (v : Bool)
    (hi : i < 32) (hj : j < 32) (hne : j ≠ i) :
    (r.set_bit i v).get_bit i = v ∧ (r.set_bit i v).get_bit j = r.get_bit j := by
  have hij : i ≠ j := hne.symm
  constructor
  · rw [MemoryRow.get_bit_eq_testBit _ hi]
    cases v <;>
      simp [MemoryRow.set_bit, hi, Nat.one_shiftLeft, Nat.testBit_two_pow,
        testBit_u32_mask]
  · rw [MemoryRow.get_bit_eq_testBit _ hj, MemoryRow.get_bit_eq_testBit _ hj]
    cases v <;>
      simp [MemoryRow.set_bit, hi, hj, Nat.one_shiftLeft, Nat.testBit_two_pow,
        testBit_u32_mask, hij]

/-- C3 witness: concrete round-trip and locality on the word `0x5`, setting
bit 3 to `true` and observing bit 2. -/
theorem set_bit_get_bit_roundtrip_locality_witness :
    ((MemoryRow.new 0 5).set_bit 3 true).get_bit 3 = true ∧
    ((MemoryRow.new 0 5).set_bit 3 true).get_bit 2 = (MemoryRow.new 0 5).get_bit 2 :=
  set_bit_get_bit_roundtrip_locality (MemoryRow.new 0 5) 3 2 true
    (by decide) (by decide) (by decide)

/-! ## C4 -/

/-- C4: for every word and every bit index outside `[0, 32)`, `get_bit`
returns `false` and `set_bit` leaves the word unchanged; both are total
functions, so neither signals an error. -/
theorem out_of_range_bit_access_is_noop (r : MemoryRow) (i : Nat) (v : Bool)
    (h : ¬ i < 32) :
    r.get_bit i = false ∧ r.set_bit i v = r := by
  simp [MemoryRow.get_bit, MemoryRow.set_bit, h]

/-- C4 witness: index 32 on the word `0xFFFFFFFF`. -/
theorem out_of_range_bit_access_is_noop_witness :
    (MemoryRow.new 0 0xFFFFFFFF).get_bit 32 = false ∧
    (MemoryRow.new 0 0xFFFFFFFF).set_bit 32 true = MemoryRow.new 0 0xFFFFFFFF :=
  out_of_range_bit_access_is_noop (MemoryRow.new 0 0xFFFFFFFF) 32 true (by decide)

/-! ## C1 -/

/-- C1: a session restored from a persisted configuration with row count 4
does NOT start from `initialize(4)`: the serde-derived deserializer recreates
the skipped `memory_rows` field as the empty vector and `TemplateApp::new`
never re-runs `initialize_memory_rows`, so the restored bank has no rows at
all, while `initialize(4)` yields four zero rows at addresses 0, 4, 8, 12. -/
theorem restored_session_differs_from_fresh_bank :
    (TemplateApp.new (some 4)).memory_rows = [] ∧
    ((TemplateApp.mk [] 4).initialize_memory_rows).memory_rows =
      [MemoryRow.new 0 0, MemoryRow.new 4 0, MemoryRow.new 8 0,
       MemoryRow.new 12 0] ∧
    TemplateApp.new (some 4) ≠ (TemplateApp.mk [] 4).initialize_memory_rows := by
  refine ⟨rfl, by decide, by decide⟩

/-! ## C9 -/

/-- C9: `remove_memory_row` on an empty bank is the identity (no error, the
function is total); on a non-empty bank it removes exactly the tail row and
updates `num_rows` to the new length. -/
theorem remove_memory_row_spec (app : TemplateApp) :
    (app.memory_rows = [] → app.remove_memory_row = app) ∧
    (app.memory_rows ≠ [] →
      app.remove_memory_row.memory_rows = app.memory_rows.dropLast ∧
      app.remove_memory_row.num_rows = app.memory_rows.length - 1) := by
  constructor
  · intro h
    simp [TemplateApp.remove_memory_row, h]
  · intro h
    simp [TemplateApp.remove_memory_row, h]

/-- C9 witness: the empty bank stays empty; removing from the default 4-row
bank leaves its first three rows and `num_rows = 3`. -/
theorem remove_memory_row_spec_witness :
    (TemplateApp.mk [] 0).remove_memory_row = TemplateApp.mk [] 0 ∧
    TemplateApp.default.remove_memory_row.memory_rows =
      TemplateApp.default.memory_rows.dropLast ∧
    TemplateApp.default.remove_memory_row.num_rows =
      TemplateApp.default.memory_rows.length - 1 :=
  ⟨(remove_memory_row_spec (TemplateApp.mk [] 0)).1 rfl,
   (remove_memory_row_spec TemplateApp.default).2 (by decide)⟩

/-! ## C8 -/

/-- C8: on any bank whose `num_rows` agrees with the length of the row
sequence (the non-degenerate banks), `add_memory_row` followed immediately by
`remove_memory_row` restores the exact prior state: same rows (addresses and
data) and same `num_rows`. -/
theorem add_then_remove_restores (app : TemplateApp)
    (h : app.num_rows = app.memory_rows.length) :
    app.add_memory_row.remove_memory_row = app := by
  rcases app with ⟨rows, n⟩
  have hne : (rows ++ [MemoryRow.new (4 * rows.length % U32_MOD) 0]).isEmpty = false := by
    cases rows <;> rfl
  simp_all [TemplateApp.add_memory_row, TemplateApp.remove_memory_row, hne,
    List.dropLast_concat]

/-- C8 witness: add-then-remove on the default 4-row bank. -/
theorem add_then_remove_restores_witness :
    TemplateApp.default.add_memory_row.remove_memory_row = TemplateApp.default :=
  add_then_remove_restores TemplateApp.default (by decide)

/-! ## C10 -/

theorem length_patternFrom (i : Nat) (rows : List MemoryRow) :
    (TemplateApp.patternFrom i rows).length = rows.length := by
  induction rows generalizing i with
  | nil => rfl
  | cons r rs ih => simp [TemplateApp.patternFrom, ih]

theorem map_address_patternFrom (i : Nat) (rows : List MemoryRow) :
    (TemplateApp.patternFrom i rows).map (fun r => r.address) =
      rows.map (fun r => r.address) := by
  induction rows generalizing i with
  | nil => rfl
  | cons r rs ih => simp [TemplateApp.patternFrom, ih]

theorem get_patternFrom (rows : List MemoryRow) :
    ∀ (i k : Nat) (hk : k < (TemplateApp.patternFrom i rows).length)
      (hk2 : k < rows.length),
      (TemplateApp.patternFrom i rows).get ⟨k, hk⟩ =
        { rows.get ⟨k, hk2⟩ with
          data := if (i + k) % 2 = 0 then 0xAAAAAAAA else 0x55555555 } := by
  induction rows with
  | nil => intro i k hk hk2; simp at hk2
  | cons r rs ih =>
    intro i k hk hk2
    cases k with
    | zero => simp [TemplateApp.patternFrom]
    | succ k =>
      have hk3 : k < (TemplateApp.patternFrom (i + 1) rs).length := by
        simp [TemplateApp.patternFrom] at hk
        simpa [length_patternFrom] using hk
      have := ih (i + 1) k hk3 (by simpa using hk2)
      simp only [TemplateApp.patternFrom, List.get_cons_succ]
      rw [this]
      have harith : i + 1 + k = i + (k + 1) := by omega
      simp [harith]

/-- C10: `set_test_pattern` keeps `num_rows` and every address, and sets the
data of row `k` to `0xAAAAAAAA` for even `k` and `0x55555555` for odd `k`; on
the default 4-row bank the data sequence is
`[0xAAAAAAAA, 0x55555555, 0xAAAAAAAA, 0x55555555]`. -/
theorem set_test_pattern_spec :
    (∀ app : TemplateApp,
      app.set_test_pattern.num_rows = app.num_rows ∧
      app.set_test_pattern.memory_rows.map (fun r => r.address) =
        app.memory_rows.map (fun r => r.address) ∧
      ∀ k (hk : k < app.set_test_pattern.memory_rows.length),
        (app.set_test_pattern.memory_rows.get ⟨k, hk⟩).data =
          if k % 2 = 0 then 0xAAAAAAAA else 0x55555555) ∧
    TemplateApp.default.set_test_pattern.memory_rows.map (fun r => r.data) =
      [0xAAAAAAAA, 0x55555555, 0xAAAAAAAA, 0x55555555] := by
  constructor
  · intro app
    refine ⟨rfl, map_address_patternFrom 0 app.memory_rows, ?_⟩
    intro k hk
    have hk2 : k < app.memory_rows.length := by
      simpa [TemplateApp.set_test_pattern, length_patternFrom] using hk
    have := get_patternFrom app.memory_rows 0 k hk hk2
    simp only [TemplateApp.set_test_pattern] at this ⊢
    rw [this]
    simp
  · decide

/-- C10 witness: the pattern on the default bank, read through the general
statement at rows 0 and 1. -/
theorem set_test_pattern_spec_witness :
    TemplateApp.default.set_test_pattern.num_rows = TemplateApp.default.num_rows ∧
    (TemplateApp.default.set_test_pattern.memory_rows.get ⟨0, by decide⟩).data
      = 0xAAAAAAAA ∧
    (TemplateApp.default.set_test_pattern.memory_rows.get ⟨1, by decide⟩).data
      = 0x55555555 :=
  ⟨(set_test_pattern_spec.1 TemplateApp.default).1,
   (set_test_pattern_spec.1 TemplateApp.default).2.2 0 (by decide),
   (set_test_pattern_spec.1 TemplateApp.default).2.2 1 (by decide)⟩

/-! ## C5 -/

theorem length_init_rows (app : TemplateApp) :
    app.initialize_memory_rows.memory_rows.length = app.num_rows := by
  simp [TemplateApp.initialize_memory_rows]

theorem get_init_rows (app : TemplateApp) (k : Nat)
    (hk : k < app.initialize_memory_rows.memory_rows.length) :
    app.initialize_memory_rows.memory_rows.get ⟨k, hk⟩ =
      MemoryRow.new (4 * k % U32_MOD) 0 := by
  have hk2 : k < app.num_rows := by simpa [length_init_rows] using hk
  simp [TemplateApp.initialize_memory_rows]

theorem four_mul_mod_u32 {k : Nat} (h : k < 2 ^ 30) : 4 * k % U32_MOD = 4 * k := by
  have e30 : (2 : Nat) ^ 30 = 1073741824 := by norm_num
  have e32 : U32_MOD = 4294967296 := by norm_num [U32_MOD]
  apply Nat.mod_eq_of_lt
  omega

/-- C5 (amended): for every bank whose `num_rows` is at most `2 ^ 30`,
`initialize_memory_rows` discards the existing rows and produces exactly
`num_rows` rows with addresses `0, 4, ..., 4*(num_rows - 1)` in order, each
with data 0 (the u32 address `(i as u32) * 4` wraps modulo `2 ^ 32` past
`2 ^ 30` rows); the default-constructed bank uses `num_rows = 4`. -/
theorem initialize_memory_rows_spec (app : TemplateApp)
    (hn : app.num_rows ≤ 2 ^ 30) :
    app.initialize_memory_rows.memory_rows.length = app.num_rows ∧
    (∀ k (hk : k < app.initialize_memory_rows.memory_rows.length),
      (app.initialize_memory_rows.memory_rows.get ⟨k, hk⟩).address = 4 * k ∧
      (app.initialize_memory_rows.memory_rows.get ⟨k, hk⟩).data = 0) ∧
    TemplateApp.default.num_rows = 4 ∧
    TemplateApp.default.memory_rows =
      [MemoryRow.new 0 0, MemoryRow.new 4 0, MemoryRow.new 8 0,
       MemoryRow.new 12 0] := by
  refine ⟨length_init_rows app, ?_, by decide, by decide⟩
  intro k hk
  have hk2 : k < app.num_rows := by simpa [length_init_rows] using hk
  rw [get_init_rows app k hk]
  exact ⟨four_mul_mod_u32 (by omega), rfl⟩

/-- C5 witness: a bank with `num_rows = 3`. -/
theorem initialize_memory_rows_spec_witness :
    (TemplateApp.mk [] 3).initialize_memory_rows.memory_rows.length = 3 ∧
    ((TemplateApp.mk [] 3).initialize_memory_rows.memory_rows.get
      ⟨2, by decide⟩).address = 4 * 2 :=
  ⟨(initialize_memory_rows_spec (TemplateApp.mk [] 3) (by norm_num)).1,
   ((initialize_memory_rows_spec (TemplateApp.mk [] 3) (by norm_num)).2.1 2
     (by decide)).1⟩

/-- C5 counterexample: with `num_rows = 2 ^ 30 + 1`, the row at position
`2 ^ 30` gets the wrapped u32 address `(4 * 2 ^ 30) % 2 ^ 32 = 0`, not
`4 * 2 ^ 30` as the claim states for every row count. -/
theorem initialize_memory_rows_overflow_cex :
    ((TemplateApp.mk [] (2 ^ 30 + 1)).initialize_memory_rows.memory_rows.get
      ⟨2 ^ 30, by rw [length_init_rows]; exact Nat.lt_succ_self _⟩).address ≠
      4 * 2 ^ 30 := by
  rw [get_init_rows]
  show 4 * 2 ^ 30 % U32_MOD ≠ 4 * 2 ^ 30
  norm_num [U32_MOD]

/-! ## C2 -/

/-- The bank invariant of the spec: row `k` sits at address `4 * k` (hence
addresses strictly increase by 4 from 0, with no duplicates), and `num_rows`
equals the number of rows. -/
def BankInv (app : TemplateApp) : Prop :=
  (∀ k (hk : k < app.memory_rows.length),
    (app.memory_rows.get ⟨k, hk⟩).address = 4 * k) ∧
  app.num_rows = app.memory_rows.length

theorem bankInv_of_getq (app : TemplateApp)
    (h1 : ∀ k r, app.memory_rows[k]? = some r → r.address = 4 * k)
    (h2 : app.num_rows = app.memory_rows.length) : BankInv app := by
  refine ⟨?_, h2⟩
  intro k hk
  apply h1 k
  rw [List.get_eq_getElem]
  exact List.getElem?_eq_getElem hk

theorem getq_of_bankInv (app : TemplateApp) (inv : BankInv app) :
    ∀ k r, app.memory_rows[k]? = some r → r.address = 4 * k := by
  intro k r h
  rcases List.getElem?_eq_some_iff.mp h with ⟨hk, hget⟩
  have := inv.1 k hk
  rw [List.get_eq_getElem, hget] at this
  exact this

theorem getq_add_memory_row_old (app : TemplateApp) (k : Nat)
    (hk : k < app.memory_rows.length) :
    app.add_memory_row.memory_rows[k]? = app.memory_rows[k]? := by
  simp only [TemplateApp.add_memory_row]
  exact List.getElem?_append_left hk

theorem getq_add_memory_row_last (app : TemplateApp) :
    app.add_memory_row.memory_rows[app.memory_rows.length]? =
      some (MemoryRow.new (4 * app.memory_rows.length % U32_MOD) 0) := by
  simp only [TemplateApp.add_memory_row]
  exact List.getElem?_concat_length _ _

theorem length_grow_to (app : TemplateApp) (t : Nat) :
    (app.grow_to t).memory_rows.length = max app.memory_rows.length t := by
  induction app, t using TemplateApp.grow_to.induct with
  | case1 app t h ih =>
    rw [TemplateApp.grow_to, if_pos h, ih, TemplateApp.length_add_memory_row]
    omega
  | case2 app t h =>
    rw [TemplateApp.grow_to, if_neg h]
    omega

theorem num_rows_grow_to (app : TemplateApp) (t : Nat)
    (h : app.num_rows = app.memory_rows.length) :
    (app.grow_to t).num_rows = (app.grow_to t).memory_rows.length := by
  induction app, t using TemplateApp.grow_to.induct with
  | case1 app t hlt ih =>
    rw [TemplateApp.grow_to, if_pos hlt]
    exact ih (by simp [TemplateApp.add_memory_row])
  | case2 app t hlt =>
    rw [TemplateApp.grow_to, if_neg hlt]
    exact h

theorem getq_grow_to_old (app : TemplateApp) (t : Nat) (k : Nat)
    (hk : k < app.memory_rows.length) :
    (app.grow_to t).memory_rows[k]? = app.memory_rows[k]? := by
  induction app, t using TemplateApp.grow_to.induct with
  | case1 app t hlt ih =>
    rw [TemplateApp.grow_to, if_pos hlt]
    rw [ih (by rw [TemplateApp.length_add_memory_row]; omega)]
    exact getq_add_memory_row_old app k hk
  | case2 app t hlt =>
    rw [TemplateApp.grow_to, if_neg hlt]

theorem getq_grow_to_new (app : TemplateApp) (t : Nat) (k : Nat)
    (hk : app.memory_rows.length ≤ k)
    (hk2 : k < (app.grow_to t).memory_rows.length) :
    (app.grow_to t).memory_rows[k]? =
      some (MemoryRow.new (4 * k % U32_MOD) 0) := by
  induction app, t using TemplateApp.grow_to.induct with
  | case1 app t hlt ih =>
    rw [TemplateApp.grow_to, if_pos hlt]
    rw [TemplateApp.grow_to, if_pos hlt] at hk2
    rcases Nat.eq_or_lt_of_le hk with heq | hgt
    · have hk3 : k < app.add_memory_row.memory_rows.length := by
        rw [TemplateApp.length_add_memory_row]; omega
      rw [getq_grow_to_old app.add_memory_row t k hk3, ← heq]
      exact getq_add_memory_row_last app
    · exact ih (by rw [TemplateApp.length_add_memory_row]; omega) hk2
  | case2 app t hlt =>
    exfalso
    rw [TemplateApp.grow_to, if_neg hlt] at hk2
    omega

theorem address_storeData (vs : List Nat) (rows : List MemoryRow) :
    (TemplateApp.storeData vs rows).map (fun r => r.address) =
      rows.map (fun r => r.address) := by
  induction vs generalizing rows with
  | nil => cases rows <;> rfl
  | cons v vs ih =>
    cases rows with
    | nil => rfl
    | cons r rs => simp [TemplateApp.storeData, ih]

theorem length_storeData (vs : List Nat) (rows : List MemoryRow) :
    (TemplateApp.storeData vs rows).length = rows.length := by
  have := congrArg List.length (address_storeData vs rows)
  simpa using this

theorem address_setFirstData (a v : Nat) (rows : List MemoryRow) :
    (TemplateApp.setFirstData a v rows).map (fun r => r.address) =
      rows.map (fun r => r.address) := by
  induction rows with
  | nil => rfl
  | cons r rs ih =>
    simp only [TemplateApp.setFirstData]
    split <;> simp [ih]

theorem length_setFirstData (a v : Nat) (rows : List MemoryRow) :
    (TemplateApp.setFirstData a v rows).length = rows.length := by
  have := congrArg List.length (address_setFirstData a v rows)
  simpa using this

theorem get_address_of_map_eq {l₁ l₂ : List MemoryRow}
    (h : l₁.map (fun r => r.address) = l₂.map (fun r => r.address))
    (k : Nat) (hk1 : k < l₁.length) (hk2 : k < l₂.length) :
    (l₁.get ⟨k, hk1⟩).address = (l₂.get ⟨k, hk2⟩).address := by
  have h1 : (l₁.map (fun r => r.address))[k]? =
      (l₂.map (fun r => r.address))[k]? := by rw [h]
  simp only [List.getElem?_map, List.getElem?_eq_getElem hk1,
    List.getElem?_eq_getElem hk2, Option.map_some, Option.some.injEq] at h1
  simpa using h1

theorem bankInv_init_rows (app : TemplateApp) (hn : app.num_rows ≤ 2 ^ 30) :
    BankInv app.initialize_memory_rows := by
  constructor
  · intro k hk
    have hk2 : k < app.num_rows := by simpa [length_init_rows] using hk
    rw [get_init_rows app k hk]
    exact four_mul_mod_u32 (by omega)
  · rw [length_init_rows]
    rfl

theorem bankInv_add (app : TemplateApp) (inv : BankInv app)
    (hlen : app.memory_rows.length < 2 ^ 30) : BankInv app.add_memory_row := by
  apply bankInv_of_getq
  · intro k r h
    by_cases hk : k < app.memory_rows.length
    · rw [getq_add_memory_row_old app k hk] at h
      exact getq_of_bankInv app inv k r h
    · have hk2 : k < app.add_memory_row.memory_rows.length :=
        (List.getElem?_eq_some_iff.mp h).1
      rw [TemplateApp.length_add_memory_row] at hk2
      have hkeq : k = app.memory_rows.length := by omega
      subst hkeq
      rw [getq_add_memory_row_last app] at h
      injection h with h
      rw [← h]
      exact four_mul_mod_u32 hlen
  · simp [TemplateApp.add_memory_row]

theorem bankInv_remove (app : TemplateApp) (inv : BankInv app) :
    BankInv app.remove_memory_row := by
  unfold TemplateApp.remove_memory_row
  split
  · exact inv
  · constructor
    · intro k hk
      simp only [List.get_eq_getElem, List.getElem_dropLast]
      have hk2 : k < app.memory_rows.length := by
        have := hk
        simp only [List.length_dropLast] at this
        omega
      have := inv.1 k hk2
      rw [List.get_eq_getElem] at this
      exact this
    · rfl

theorem bankInv_set_memory_data (app : TemplateApp) (a v : Nat)
    (inv : BankInv app) : BankInv (app.set_memory_data a v) := by
  constructor
  · intro k hk
    have hk2 : k < app.memory_rows.length := by
      simpa [TemplateApp.set_memory_data, length_setFirstData] using hk
    have heq := get_address_of_map_eq (address_setFirstData a v app.memory_rows)
      k (by simpa [TemplateApp.set_memory_data, length_setFirstData] using hk) hk2
    exact heq.trans (inv.1 k hk2)
  · have hlen : (TemplateApp.setFirstData a v app.memory_rows).length =
        app.memory_rows.length := length_setFirstData a v _
    exact inv.2.trans hlen.symm

theorem bankInv_grow_to (app : TemplateApp) (t : Nat) (inv : BankInv app)
    (ht : t ≤ 2 ^ 30) : BankInv (app.grow_to t) := by
  apply bankInv_of_getq
  · intro k r h
    by_cases hk : k < app.memory_rows.length
    · rw [getq_grow_to_old app t k hk] at h
      exact getq_of_bankInv app inv k r h
    · have hk2 : k < (app.grow_to t).memory_rows.length :=
        (List.getElem?_eq_some_iff.mp h).1
      rw [getq_grow_to_new app t k (by omega) hk2] at h
      injection h with h
      rw [← h]
      have hkt : k < t := by
        rw [length_grow_to] at hk2
        omega
      exact four_mul_mod_u32 (by omega)
  · exact num_rows_grow_to app t inv.2

theorem bankInv_load (app : TemplateApp) (data : List Nat) (inv : BankInv app)
    (hd : data.length ≤ 2 ^ 30) : BankInv (app.load_memory_from_array data) := by
  have hg := bankInv_grow_to app data.length inv hd
  constructor
  · intro k hk
    have hk2 : k < (app.grow_to data.length).memory_rows.length := by
      simpa [TemplateApp.load_memory_from_array, length_storeData] using hk
    have heq := get_address_of_map_eq
      (address_storeData data (app.grow_to data.length).memory_rows) k
      (by simpa [TemplateApp.load_memory_from_array, length_storeData] using hk)
      hk2
    exact heq.trans (hg.1 k hk2)
  · have hlen : (TemplateApp.storeData data
        (app.grow_to data.length).memory_rows).length =
        (app.grow_to data.length).memory_rows.length := length_storeData _ _
    exact hg.2.trans hlen.symm

theorem bankInv_clear (app : TemplateApp) (inv : BankInv app) :
    BankInv app.clear_memory := by
  constructor
  · intro k hk
    have hk2 : k < app.memory_rows.length := by
      simpa [TemplateApp.clear_memory] using hk
    have := inv.1 k hk2
    simp only [TemplateApp.clear_memory, List.get_eq_getElem,
      List.getElem_map] at *
    exact this
  · simp [TemplateApp.clear_memory, inv.2]

theorem bankInv_pattern (app : TemplateApp) (inv : BankInv app) :
    BankInv app.set_test_pattern := by
  constructor
  · intro k hk
    have hk2 : k < app.memory_rows.length := by
      simpa [TemplateApp.set_test_pattern, length_patternFrom] using hk
    have heq := get_address_of_map_eq (map_address_patternFrom 0 app.memory_rows)
      k (by simpa [TemplateApp.set_test_pattern, length_patternFrom] using hk) hk2
    exact heq.trans (inv.1 k hk2)
  · have hlen : (TemplateApp.patternFrom 0 app.memory_rows).length =
        app.memory_rows.length := length_patternFrom 0 _
    exact inv.2.trans hlen.symm

theorem bankInv_set_bit_in_row (app : TemplateApp) (ri bi : Nat) (v : Bool)
    (inv : BankInv app) : BankInv (app.set_bit_in_row ri bi v) := by
  unfold TemplateApp.set_bit_in_row
  split
  · constructor
    · intro k hk
      have hk2 : k < app.memory_rows.length := by
        simpa using hk
      simp only [List.get_eq_getElem, List.getElem_set]
      split
      · rename_i hik
        rw [MemoryRow.address_set_bit, ← hik]
        have h2 := inv.1 ri (by assumption)
        rw [List.get_eq_getElem] at h2
        exact h2
      · have := inv.1 k hk2
        rw [List.get_eq_getElem] at this
        exact this
    · simp [inv.2]
  · exact inv

/-- C2 (amended): the invariant `BankInv` (row `k` at address `4 * k`, and
`num_rows = length`) holds after `initialize_memory_rows` whenever the row
count is at most `2 ^ 30`, and is preserved by every bank operation provided
the operation does not extend the bank past `2 ^ 30` rows — the u32 address
`4 * len` wraps modulo `2 ^ 32` beyond that; `remove_memory_row`,
`set_memory_data`, `clear_memory`, `set_test_pattern` and the per-row
`set_bit` preserve it unconditionally. -/
theorem bank_invariant_preservation :
    (∀ app : TemplateApp, app.num_rows ≤ 2 ^ 30 →
      BankInv app.initialize_memory_rows) ∧
    (∀ app : TemplateApp, BankInv app → app.memory_rows.length < 2 ^ 30 →
      BankInv app.add_memory_row) ∧
    (∀ app : TemplateApp, BankInv app → BankInv app.remove_memory_row) ∧
    (∀ (app : TemplateApp) (a v : Nat), BankInv app →
      BankInv (app.set_memory_data a v)) ∧
    (∀ (app : TemplateApp) (data : List Nat), BankInv app →
      data.length ≤ 2 ^ 30 → BankInv (app.load_memory_from_array data)) ∧
    (∀ app : TemplateApp, BankInv app → BankInv app.clear_memory) ∧
    (∀ app : TemplateApp, BankInv app → BankInv app.set_test_pattern) ∧
    (∀ (app : TemplateApp) (ri bi : Nat) (v : Bool), BankInv app →
      BankInv (app.set_bit_in_row ri bi v)) :=
  ⟨bankInv_init_rows, bankInv_add, bankInv_remove, bankInv_set_memory_data,
   bankInv_load, bankInv_clear, bankInv_pattern, bankInv_set_bit_in_row⟩

/-- C2 witness: the invariant established on a fresh 2-row bank, and
preserved by an add, a clear, a data store and a bit toggle on the default
4-row bank. -/
theorem bank_invariant_preservation_witness :
    BankInv ((TemplateApp.mk [] 2).initialize_memory_rows) ∧
    BankInv TemplateApp.default.add_memory_row ∧
    BankInv TemplateApp.default.clear_memory ∧
    BankInv (TemplateApp.default.set_memory_data 4 77) ∧
    BankInv (TemplateApp.default.set_bit_in_row 0 31 true) :=
  have hd : BankInv TemplateApp.default :=
    bank_invariant_preservation.1 (TemplateApp.mk [] 4) (by norm_num)
  ⟨bank_invariant_preservation.1 (TemplateApp.mk [] 2) (by norm_num),
   bank_invariant_preservation.2.1 TemplateApp.default hd (by decide),
   bank_invariant_preservation.2.2.2.2.2.1 TemplateApp.default hd,
   bank_invariant_preservation.2.2.2.1 TemplateApp.default 4 77 hd,
   bank_invariant_preservation.2.2.2.2.2.2.2 TemplateApp.default 0 31 true hd⟩

/-- C2 counterexample: the invariant is NOT preserved by `add_memory_row` at
row count exactly `2 ^ 30` — the bank produced by `initialize_memory_rows`
with `num_rows = 2 ^ 30` satisfies the invariant, but the appended row gets
the wrapped u32 address `(4 * 2 ^ 30) % 2 ^ 32 = 0` instead of `4 * 2 ^ 30`,
so the claim as stated (preservation by every operation, for every index)
fails. -/
theorem bank_invariant_add_overflow_cex :
    BankInv ((TemplateApp.mk [] (2 ^ 30)).initialize_memory_rows) ∧
    ¬ BankInv ((TemplateApp.mk [] (2 ^ 30)).initialize_memory_rows.add_memory_row) := by
  constructor
  · exact bankInv_init_rows _ (le_refl _)
  · intro inv
    have hlen : ((TemplateApp.mk [] (2 ^ 30)).initialize_memory_rows).memory_rows.length
        = 2 ^ 30 := length_init_rows _
    have hsome : ((TemplateApp.mk [] (2 ^ 30)).initialize_memory_rows.add_memory_row).memory_rows[(2 ^ 30 : Nat)]?
        = some (MemoryRow.new (4 * 2 ^ 30 % U32_MOD) 0) := by
      have h := getq_add_memory_row_last
        ((TemplateApp.mk [] (2 ^ 30)).initialize_memory_rows)
      rw [hlen] at h
      exact h
    have hv := getq_of_bankInv _ inv (2 ^ 30) _ hsome
    norm_num [MemoryRow.new, U32_MOD] at hv

/-! ## C6 -/

theorem get_of_getq {α : Type} {l : List α} {k : Nat} {r : α}
    (h : l[k]? = some r) (hk : k < l.length) : l.get ⟨k, hk⟩ = r := by
  rw [List.get_eq_getElem]
  rw [List.getElem?_eq_getElem hk] at h
  exact Option.some.inj h

theorem getq_storeData (vs : List Nat) (rows : List MemoryRow) (k : Nat) :
    (TemplateApp.storeData vs rows)[k]? =
      match rows[k]?, vs[k]? with
      | none, _ => none
      | some r, some v => some { r with data := v }
      | some r, none => some r := by
  induction vs generalizing rows k with
  | nil =>
    cases rows with
    | nil => simp [TemplateApp.storeData]
    | cons r rs => cases hrk : (r :: rs)[k]? <;> simp [TemplateApp.storeData, hrk]
  | cons v vs ih =>
    cases rows with
    | nil => simp [TemplateApp.storeData]
    | cons r rs =>
      cases k with
      | zero => simp [TemplateApp.storeData]
      | succ k => simpa [TemplateApp.storeData] using ih rs k

/-- C6: `load_memory_from_array` grows the bank to
`max (current length) (input length)` rows; the growth phase only appends
zero rows after the existing ones; afterwards row `k` holds `data[k]` for
every `k` below the input length; every pre-existing row keeps its address,
and pre-existing rows past the input length are left completely untouched, so
rows are never removed or reordered. -/
theorem load_memory_from_array_spec (app : TemplateApp) (data : List Nat) :
    (app.load_memory_from_array data).memory_rows.length =
      max app.memory_rows.length data.length ∧
    (∀ k (hk : k < (app.grow_to data.length).memory_rows.length),
      app.memory_rows.length ≤ k →
      ((app.grow_to data.length).memory_rows.get ⟨k, hk⟩).data = 0) ∧
    (∀ k (hk : k < (app.load_memory_from_array data).memory_rows.length)
      (hd : k < data.length),
      ((app.load_memory_from_array data).memory_rows.get ⟨k, hk⟩).data =
        data.get ⟨k, hd⟩) ∧
    (∀ k (hk : k < (app.load_memory_from_array data).memory_rows.length)
      (ho : k < app.memory_rows.length),
      ((app.load_memory_from_array data).memory_rows.get ⟨k, hk⟩).address =
        (app.memory_rows.get ⟨k, ho⟩).address) ∧
    (∀ k (hk : k < (app.load_memory_from_array data).memory_rows.length)
      (ho : k < app.memory_rows.length), data.length ≤ k →
      (app.load_memory_from_array data).memory_rows.get ⟨k, hk⟩ =
        app.memory_rows.get ⟨k, ho⟩) := by
  refine ⟨?_, ?_, ?_, ?_, ?_⟩
  · simp [TemplateApp.load_memory_from_array, length_storeData, length_grow_to]
  · intro k hk hge
    have hq := getq_grow_to_new app data.length k hge hk
    rw [get_of_getq hq hk]
    rfl
  · intro k hk hd
    have hkg : k < (app.grow_to data.length).memory_rows.length := by
      simpa [TemplateApp.load_memory_from_array, length_storeData] using hk
    have hq := getq_storeData data (app.grow_to data.length).memory_rows k
    rw [List.getElem?_eq_getElem hkg, List.getElem?_eq_getElem hd] at hq
    show ((TemplateApp.storeData data
      (app.grow_to data.length).memory_rows).get ⟨k, hk⟩).data = data.get ⟨k, hd⟩
    rw [get_of_getq hq hk]
    rfl
  · intro k hk ho
    have hkg : k < (app.grow_to data.length).memory_rows.length := by
      simpa [TemplateApp.load_memory_from_array, length_storeData] using hk
    have h1 := get_address_of_map_eq
      (address_storeData data (app.grow_to data.length).memory_rows) k
      (by simpa [TemplateApp.load_memory_from_array, length_storeData] using hk)
      hkg
    have h2 : (app.grow_to data.length).memory_rows.get ⟨k, hkg⟩ =
        app.memory_rows.get ⟨k, ho⟩ := by
      apply get_of_getq
      rw [getq_grow_to_old app data.length k ho]
      rw [List.get_eq_getElem]
      exact List.getElem?_eq_getElem ho
    exact h1.trans (by rw [h2])
  · intro k hk ho hge
    have hkg : k < (app.grow_to data.length).memory_rows.length := by
      simpa [TemplateApp.load_memory_from_array, length_storeData] using hk
    have hq := getq_storeData data (app.grow_to data.length).memory_rows k
    rw [List.getElem?_eq_getElem hkg, List.getElem?_eq_none hge] at hq
    show (TemplateApp.storeData data
      (app.grow_to data.length).memory_rows).get ⟨k, hk⟩ = app.memory_rows.get ⟨k, ho⟩
    rw [get_of_getq hq hk]
    have h2 : (app.grow_to data.length).memory_rows.get ⟨k, hkg⟩ =
        app.memory_rows.get ⟨k, ho⟩ := by
      apply get_of_getq
      rw [getq_grow_to_old app data.length k ho]
      rw [List.get_eq_getElem]
      exact List.getElem?_eq_getElem ho
    exact h2

theorem length_load_default_12 :
    (TemplateApp.default.load_memory_from_array [1, 2]).memory_rows.length = 4 := by
  show (TemplateApp.storeData [1, 2]
    (TemplateApp.default.grow_to 2).memory_rows).length = 4
  rw [length_storeData, length_grow_to]
  decide

/-- C6 witness: loading `[1, 2]` into the default 4-row bank keeps 4 rows,
stores 1 in row 0, and leaves row 3 untouched. -/
theorem load_memory_from_array_spec_witness :
    (TemplateApp.default.load_memory_from_array [1, 2]).memory_rows.length =
      max TemplateApp.default.memory_rows.length 2 ∧
    ((TemplateApp.default.load_memory_from_array [1, 2]).memory_rows.get
      ⟨0, by rw [length_load_default_12]; decide⟩).data = 1 ∧
    (TemplateApp.default.load_memory_from_array [1, 2]).memory_rows.get
      ⟨3, by rw [length_load_default_12]; decide⟩ =
      TemplateApp.default.memory_rows.get ⟨3, by decide⟩ :=
  ⟨(load_memory_from_array_spec TemplateApp.default [1, 2]).1,
   (load_memory_from_array_spec TemplateApp.default [1, 2]).2.2.1 0
     (by rw [length_load_default_12]; decide) (by decide),
   (load_memory_from_array_spec TemplateApp.default [1, 2]).2.2.2.2 3
     (by rw [length_load_default_12]; decide) (by decide) (by decide)⟩

/-! ## C7 -/

theorem setFirstData_no_match (a v : Nat) (rows : List MemoryRow)
    (h : ∀ r ∈ rows, r.address ≠ a) :
    TemplateApp.setFirstData a v rows = rows := by
  induction rows with
  | nil => rfl
  | cons r rs ih =>
    have hr : (r.address == a) = false := by
      simpa using h r (List.mem_cons_self r rs)
    simp only [TemplateApp.setFirstData, hr, Bool.false_eq_true, if_false,
      List.cons.injEq, true_and]
    exact ih (fun x hx => h x (List.mem_cons_of_mem r hx))

theorem find?_no_match (a : Nat) (rows : List MemoryRow)
    (h : ∀ r ∈ rows, r.address ≠ a) :
    rows.find? (fun r => r.address == a) = none := by
  apply List.find?_eq_none.mpr
  intro r hr
  simpa using h r hr

theorem get_after_setFirstData (a v : Nat) (rows : List MemoryRow)
    (h : ∃ r ∈ rows, r.address = a) :
    ((TemplateApp.setFirstData a v rows).find? (fun r => r.address == a)).map
      (fun r => r.data) = some v := by
  induction rows with
  | nil => simp at h
  | cons r rs ih =>
    by_cases hra : r.address = a
    · simp [TemplateApp.setFirstData, hra]
    · have h' : ∃ x ∈ rs, x.address = a := by
        rcases h with ⟨x, hx, hxa⟩
        rcases List.mem_cons.mp hx with rfl | hmem
        · exact absurd hxa hra
        · exact ⟨x, hmem, hxa⟩
      simp [TemplateApp.setFirstData, hra, ih h']

/-- C7: when no row has address `a`, `set_memory_data(a, v)` leaves the bank
completely unchanged (no row is auto-created) and `get_memory_data(a)`
returns `none`, distinguishable from a stored zero; when some row has
address `a`, `get_memory_data(a)` after `set_memory_data(a, v)` returns
`some v`. -/
theorem set_get_memory_data_spec (app : TemplateApp) (a v : Nat) :
    ((∀ r ∈ app.memory_rows, r.address ≠ a) →
      app.set_memory_data a v = app ∧ app.get_memory_data a = none) ∧
    ((∃ r ∈ app.memory_rows, r.address = a) →
      (app.set_memory_data a v).get_memory_data a = some v) := by
  constructor
  · intro h
    constructor
    · simp [TemplateApp.set_memory_data, setFirstData_no_match a v app.memory_rows h]
    · simp [TemplateApp.get_memory_data, find?_no_match a app.memory_rows h]
  · intro h
    exact get_after_setFirstData a v app.memory_rows h

/-- C7 witness: on the default bank (addresses 0, 4, 8, 12), address 5 is
absent — the store is a no-op and the read is `none`; storing `0x1234ABCD`
at the present address 4 and reading it back yields `some 0x1234ABCD`. -/
theorem set_get_memory_data_spec_witness :
    (TemplateApp.default.set_memory_data 5 9 = TemplateApp.default ∧
      TemplateApp.default.get_memory_data 5 = none) ∧
    (TemplateApp.default.set_memory_data 4 0x1234ABCD).get_memory_data 4 =
      some 0x1234ABCD :=
  ⟨(set_get_memory_data_spec TemplateApp.default 5 9).1 (by decide),
   (set_get_memory_data_spec TemplateApp.default 4 0x1234ABCD).2 (by decide)⟩
